import Mathlib

/-!
Shallow embedding of `src/main.py` (a CLI address-book assistant) and
verification of its specification claims.

Conventions of the embedding:
* Python strings are Lean `String`s (ASCII fragment; the repository only
  manipulates ASCII digits, ASCII command words and fixed message literals,
  so the Unicode-digit behaviour of Python's `\d` and `str.lower` outside
  ASCII is out of scope of the model).
* Exceptions are modelled with `Except String` carrying `str(e)`.
* In-place mutation of a `Record` stored in the book is modelled by writing
  the updated record back under the key it was found at.
* `datetime` values are modelled by year/month/day plus a seconds-of-day
  component (strptime produces midnight; `datetime.today()` carries the
  clock time, which matters for the `<=` comparison in the birthday query).
-/

set_option autoImplicit false

namespace Assistant

/-! ## Phone validation (`Phone.validate_phone`, src/main.py lines 25-28)

The source checks `re.compile(r"^\d{10}$").match(phone) is not None`.
Python regex semantics: `re.match` anchors at the start, `\d{10}` consumes
ten digit characters, and `$` succeeds either at the end of the string or
just before a newline that is the last character.  Hence the pattern also
accepts ten digits followed by a single trailing `'\n'`. -/

def validate_phone (s : String) : Bool :=
  (s.data.take 10).all Char.isDigit &&
    (s.data.length == 10 || (s.data.length == 11 && s.data.drop 10 == ['\n']))

def phoneError : String := "Номер телефону повинен містити 10 цифр"

/-- `Phone.__init__` (src/main.py lines 19-23): validate, then store the raw
string as `self.value`. -/
def Phone_new (value : String) : Except String String :=
  if validate_phone value then .ok value else .error phoneError

def nameError : String := "Ім\x27я не може бути порожнім"

/-- `Name.__init__` (src/main.py lines 13-17): `if not value: raise` — for a
string argument this rejects exactly the empty string. -/
def Name_new (value : String) : Except String String :=
  if value = "" then .error nameError else .ok value

/-! ## Date model -/

/-- A `datetime.datetime` value: calendar fields plus time-of-day collapsed
to seconds (the repository never inspects finer structure). -/
structure PyDateTime where
  year : Nat
  month : Nat
  day : Nat
  secondsOfDay : Nat
deriving DecidableEq, Repr

/-- Gregorian leap-year rule used by `datetime`. -/
def isLeap (y : Nat) : Bool :=
  y % 4 == 0 && (y % 100 != 0 || y % 400 == 0)

def daysInMonth (y m : Nat) : Nat :=
  if m = 2 then (if isLeap y then 29 else 28)
  else if m = 4 ∨ m = 6 ∨ m = 9 ∨ m = 11 then 30
  else 31

/-- Validity check performed by the `datetime` constructor (and by
`datetime.replace`): year within `MINYEAR..MAXYEAR`, month `1..12`, day
within the month. -/
def dateValid (y m d : Nat) : Bool :=
  decide (1 ≤ y) && decide (y ≤ 9999) && decide (1 ≤ m) && decide (m ≤ 12) &&
    decide (1 ≤ d) && decide (d ≤ daysInMonth y m)

def daysBeforeMonth (y m : Nat) : Nat :=
  (List.range (m - 1)).foldl (fun acc i => acc + daysInMonth y (i + 1)) 0

/-- Proleptic-Gregorian ordinal of a date (as `datetime.toordinal`); used to
give `datetime` values their total order. -/
def toOrdinal (t : PyDateTime) : Nat :=
  365 * (t.year - 1) + (t.year - 1) / 4 - (t.year - 1) / 100 + (t.year - 1) / 400 +
    daysBeforeMonth t.year t.month + t.day

def toSeconds (t : PyDateTime) : Nat :=
  toOrdinal t * 86400 + t.secondsOfDay

/-- `datetime` comparison `a <= b` (lexicographic on the fields, which on
valid dates coincides with comparing day-ordinal then time-of-day). -/
def pyLe (a b : PyDateTime) : Bool := decide (toSeconds a ≤ toSeconds b)

/-- `datetime` comparison `a < b`. -/
def pyLt (a b : PyDateTime) : Bool := decide (toSeconds a < toSeconds b)

def nextDay (t : PyDateTime) : PyDateTime :=
  if t.day + 1 ≤ daysInMonth t.year t.month then { t with day := t.day + 1 }
  else if t.month + 1 ≤ 12 then { t with month := t.month + 1, day := 1 }
  else { t with year := t.year + 1, month := 1, day := 1 }

/-- `t + timedelta(days=n)`. -/
def addDays (t : PyDateTime) : Nat → PyDateTime
  | 0 => t
  | n + 1 => addDays (nextDay t) n

/-! ## `datetime.strptime(value, "%d.%m.%Y")` (used by `Birthday`)

CPython's `_strptime` compiles the format to a regex: `%d` becomes
`3[0-1]|[1-2]\d|0[1-9]|[1-9]| [1-9]` (note the final space-padded-day
alternative, so `" 1"` is a valid day token), `%m` becomes
`1[0-2]|0[1-9]|[1-9]` (no space alternative), `%Y` becomes `\d\d\d\d`, the
dots are literal, the whole input must be consumed ("unconverted data
remains" otherwise), and the resulting fields must form a constructible
`datetime`.  The tokenizers below commit to a two-character alternative
when it applies: this is equivalent to the backtracking regex because the
character that follows each field is a literal `'.'` (or the end of
input), which a leftover digit can never satisfy, and no later alternative
can match a string whose first character already matched an earlier one
(the first four day alternatives consume a digit first, the fifth a
space). -/

def digitVal (c : Char) : Nat := c.toNat - 48

def digitChar (n : Nat) : Char := Char.ofNat (48 + n)

def isDigit19 (c : Char) : Bool := c.isDigit && c != '0'

/-- `%d` tokenizer: regex `3[0-1]|[1-2]\d|0[1-9]|[1-9]| [1-9]` (the last
alternative accepts a space-padded day such as `" 1"`). -/
def matchDay : List Char → Option (Nat × List Char)
  | c1 :: c2 :: rest =>
    if c1 = '3' && (c2 = '0' || c2 = '1') then some (30 + digitVal c2, rest)
    else if (c1 = '1' || c1 = '2') && c2.isDigit then
      some (digitVal c1 * 10 + digitVal c2, rest)
    else if c1 = '0' && isDigit19 c2 then some (digitVal c2, rest)
    else if isDigit19 c1 then some (digitVal c1, c2 :: rest)
    else if c1 = ' ' && isDigit19 c2 then some (digitVal c2, rest)
    else none
  | [c1] => if isDigit19 c1 then some (digitVal c1, []) else none
  | [] => none

/-- `%m` tokenizer: regex `1[0-2]|0[1-9]|[1-9]`. -/
def matchMonth : List Char → Option (Nat × List Char)
  | c1 :: c2 :: rest =>
    if c1 = '1' && (c2 = '0' || c2 = '1' || c2 = '2') then some (10 + digitVal c2, rest)
    else if c1 = '0' && isDigit19 c2 then some (digitVal c2, rest)
    else if isDigit19 c1 then some (digitVal c1, c2 :: rest)
    else none
  | [c1] => if isDigit19 c1 then some (digitVal c1, []) else none
  | [] => none

/-- `%Y` tokenizer: regex `\d\d\d\d` (exactly four digits). -/
def matchYear : List Char → Option (Nat × List Char)
  | c1 :: c2 :: c3 :: c4 :: rest =>
    if c1.isDigit && c2.isDigit && c3.isDigit && c4.isDigit then
      some (digitVal c1 * 1000 + digitVal c2 * 100 + digitVal c3 * 10 + digitVal c4, rest)
    else none
  | _ => none

/-- `datetime.strptime(s, "%d.%m.%Y")`, returning `some (day, month, year)`
on success and `none` when a `ValueError` is raised (regex failure,
unconverted trailing data, or an unconstructible date such as `31.04.2020`
or year `0000`). -/
def strptime_dmY (s : String) : Option (Nat × Nat × Nat) :=
  match matchDay s.data with
  | none => none
  | some (d, r1) =>
    match r1 with
    | '.' :: r2 =>
      match matchMonth r2 with
      | none => none
      | some (m, r3) =>
        match r3 with
        | '.' :: r4 =>
          match matchYear r4 with
          | none => none
          | some (y, r5) =>
            if r5 = [] && dateValid y m d then some (d, m, y) else none
        | _ => none
    | _ => none

def birthdayError : String := "Неправильний формат дати. Використовуйте DD.MM.YYYY"

/-- `Birthday.__init__` (src/main.py lines 30-42): `validate_date` tries the
same `strptime` call and converts `ValueError` to `False`; on success the
parsed `datetime` (midnight time) is stored as `self.value`. -/
def Birthday_new (value : String) : Except String PyDateTime :=
  match strptime_dmY value with
  | some (d, m, y) => .ok ⟨y, m, d, 0⟩
  | none => .error birthdayError

/-! ## `Record` (src/main.py lines 44-69) -/

structure Record where
  name : String
  phones : List String
  birthday : Option PyDateTime
deriving DecidableEq, Repr

/-- `Record.__init__`: builds the `Name` (which may raise on an empty
string), empty phone list, no birthday. -/
def Record_new (name : String) : Except String Record :=
  (Name_new name).map fun nm => ⟨nm, [], none⟩

namespace Record

/-- `add_phone`: construct a `Phone` (propagating its `ValueError`), then
append it.  On failure the phone list is untouched (the append happens after
construction). -/
def add_phone (r : Record) (phone : String) : Except String Record :=
  (Phone_new phone).map fun p => { r with phones := r.phones ++ [p] }

/-- `remove_phone`: keep the phones whose value differs from the argument. -/
def remove_phone (r : Record) (phone : String) : Record :=
  { r with phones := r.phones.filter fun p => p ≠ phone }

/-- `edit_phone`: `remove_phone` then `add_phone` (the removal survives even
when the subsequent add fails; `change_contact` below models that). -/
def edit_phone (r : Record) (old_phone new_phone : String) : Except String Record :=
  (r.remove_phone old_phone).add_phone new_phone

/-- `find_phone`: first phone whose value equals the argument. -/
def find_phone (r : Record) (phone : String) : Option String :=
  r.phones.find? fun p => p = phone

/-- `Record.add_birthday`: construct a `Birthday` (propagating failure) and
overwrite `self.birthday`. -/
def add_birthday (r : Record) (birthday : String) : Except String Record :=
  (Birthday_new birthday).map fun b => { r with birthday := some b }

end Record

/-- `strftime("%d.%m.%Y")`: day and month zero-padded to two digits, year
printed as a plain number (glibc does not zero-pad `%Y`; all stored years
have four digits anyway). -/
def pad2 (n : Nat) : String := if n < 10 then "0" ++ toString n else toString n

def strftime_dmY (t : PyDateTime) : String :=
  pad2 t.day ++ "." ++ pad2 t.month ++ "." ++ toString t.year

/-- `"; ".join`-style joining. -/
def joinSep (sep : String) : List String → String
  | [] => ""
  | [x] => x
  | x :: y :: rest => x ++ sep ++ joinSep sep (y :: rest)

/-- `Record.__str__`. -/
def Record.render (r : Record) : String :=
  "Ім\x27я контакту: " ++ r.name ++ ", телефони: " ++ joinSep "; " r.phones ++
    (match r.birthday with
     | some b => ", День народження: " ++ strftime_dmY b
     | none => "")

/-! ## `AddressBook` (src/main.py lines 71-91)

A `UserDict` is a Python `dict`: keys are unique and iteration follows
insertion order.  It is modelled as an association list; assignment to an
existing key replaces the value in place, assignment to a fresh key appends. -/

abbrev AddressBook := List (String × Record)

/-- `self.data[k] = v` on a Python dict. -/
def dict_set (book : AddressBook) (k : String) (v : Record) : AddressBook :=
  match book with
  | [] => [(k, v)]
  | (k0, v0) :: rest =>
    if k0 = k then (k0, v) :: rest else (k0, v0) :: dict_set rest k v

namespace AddressBook

/-- `add_record`: `self.data[record.name.value] = record`. -/
def add_record (book : AddressBook) (r : Record) : AddressBook :=
  dict_set book r.name r

/-- `find`: `self.data.get(name, None)`. -/
def find (book : AddressBook) (name : String) : Option Record :=
  (List.find? (fun e => e.1 = name) book).map Prod.snd

/-- `delete`: remove the entry under `name` when present. -/
def delete (book : AddressBook) (name : String) : AddressBook :=
  List.filter (fun e => e.1 ≠ name) book

/-- `ValueError` message raised by `datetime.replace` on an invalid day
(the only possible failure here: a Feb 29 birthday anchored to a
non-leap year). -/
def dayRangeError : String := "day is out of range for month"

/-- `get_upcoming_birthdays` body, iterating the records in insertion
order.  `replace(year=today.year)` raises when the anchored date is not
constructible; that exception escapes the method. -/
def upcoming_aux (today upcoming : PyDateTime) : List (String × Record) → Except String (List String)
  | [] => .ok []
  | (_, r) :: rest =>
    match r.birthday with
    | none => upcoming_aux today upcoming rest
    | some b =>
      if dateValid today.year b.month b.day then
        let birthday_this_year : PyDateTime := { b with year := today.year }
        if pyLe today birthday_this_year && pyLt birthday_this_year upcoming then
          (upcoming_aux today upcoming rest).map fun l => r.name :: l
        else upcoming_aux today upcoming rest
      else .error dayRangeError

/-- `get_upcoming_birthdays(days=7)`; `today` (the clock value
`datetime.today()`) is passed explicitly. -/
def get_upcoming_birthdays (book : AddressBook) (today : PyDateTime) (days : Nat) :
    Except String (List String) :=
  upcoming_aux today (addDays today days) book

end AddressBook

/-! ## Persistence (src/main.py lines 93-102)

`pickle` serializes the whole object graph to bytes and reconstructs it
exactly.  Modelled from the spec requirement of round-trip fidelity: the
byte stream is a tagged tree `PickleVal`; `pickle.dump` is the injective
encoding below, `pickle.load` the decoder (which can fail on foreign
bytes, modelling `UnpicklingError`). -/

inductive PickleVal where
  | pstr (s : String)
  | pnat (n : Nat)
  | plist (l : List PickleVal)
  | pnone
deriving Repr

def encodeDate (t : PyDateTime) : PickleVal :=
  .plist [.pnat t.year, .pnat t.month, .pnat t.day, .pnat t.secondsOfDay]

def decodeDate : PickleVal → Option PyDateTime
  | .plist [.pnat y, .pnat m, .pnat d, .pnat s] => some ⟨y, m, d, s⟩
  | _ => none

def encodePhones (l : List String) : List PickleVal :=
  l.map .pstr

def decodePhones : List PickleVal → Option (List String)
  | [] => some []
  | .pstr s :: rest => (decodePhones rest).map fun l => s :: l
  | _ => none

def encodeRecord (r : Record) : PickleVal :=
  .plist [.pstr r.name, .plist (encodePhones r.phones),
    match r.birthday with
    | some b => encodeDate b
    | none => .pnone]

def decodeRecord : PickleVal → Option Record
  | .plist [.pstr n, .plist ps, bv] =>
    match decodePhones ps with
    | none => none
    | some phones =>
      match bv with
      | .pnone => some ⟨n, phones, none⟩
      | v => (decodeDate v).map fun b => ⟨n, phones, some b⟩
  | _ => none

def encodeBook (book : AddressBook) : PickleVal :=
  .plist (book.map fun e => .plist [.pstr e.1, encodeRecord e.2])

def decodeEntries : List PickleVal → Option (List (String × Record))
  | [] => some []
  | .plist [.pstr k, rv] :: rest =>
    match decodeRecord rv, decodeEntries rest with
    | some r, some l => some ((k, r) :: l)
    | _, _ => none
  | _ => none

def decodeBook : PickleVal → Option AddressBook
  | .plist l => decodeEntries l
  | _ => none

/-- `save_data(book, filename)`: overwrite the file with the pickled book.
The file is modelled as `Option PickleVal` (`none` = no file). -/
def save_data (book : AddressBook) (_file : Option PickleVal) : Option PickleVal :=
  some (encodeBook book)

/-- `load_data(filename)`: `FileNotFoundError` (a missing file) is the only
exception caught and yields a fresh empty `AddressBook()`; any other
failure (here: undecodable contents) propagates. -/
def load_data (file : Option PickleVal) : Except String AddressBook :=
  match file with
  | none => .ok []
  | some v =>
    match decodeBook v with
    | some book => .ok book
    | none => .error "UnpicklingError"

/-! ## Command handlers (src/main.py lines 104-181)

Each handler is wrapped by `input_error` (lines 104-110): any exception
raised inside the body is caught and `str(e)` is returned.  A handler is
modelled as `List String → AddressBook → String × AddressBook`: the
returned string plus the book state after the call (mutations performed
before an exception persist, exactly as in Python). -/

def notFoundMsg (name : String) : String :=
  "Контакт з іменем " ++ name ++ " не знайдено."

/-- Handler `add_contact` (src/main.py lines 142-154).  Note the order of
operations on a fresh name: the `Record` is inserted into the book *before*
`add_phone` runs, so a phone-validation failure leaves the empty record
behind. -/
def add_contact (args : List String) (book : AddressBook) : String × AddressBook :=
  match args with
  | name :: phone :: _ =>
    match book.find name with
    | some r =>
      match r.add_phone phone with
      | .ok r2 => ("Контакт оновлено.", dict_set book name r2)
      | .error e => (e, book)
    | none =>
      match Record_new name with
      | .error e => (e, book)
      | .ok r =>
        let book1 := book.add_record r
        match r.add_phone phone with
        | .ok r2 => ("Контакт додано.", dict_set book1 name r2)
        | .error e => (e, book1)
  | _ => ("Будь ласка, вкажіть ім\x27я та телефон.", book)

/-- Handler `change_contact` (src/main.py lines 156-165).  `edit_phone` is
remove-then-add; when the new phone fails validation the removal has
already mutated the record in the book. -/
def change_contact (args : List String) (book : AddressBook) : String × AddressBook :=
  match args with
  | name :: old_phone :: new_phone :: _ =>
    match book.find name with
    | none => (notFoundMsg name, book)
    | some r =>
      let r1 := r.remove_phone old_phone
      match r1.add_phone new_phone with
      | .ok r2 => ("Телефонний номер для " ++ name ++ " змінено.", dict_set book name r2)
      | .error e => (e, dict_set book name r1)
  | _ => ("Будь ласка, вкажіть ім\x27я, старий і новий телефон.", book)

/-- Handler `show_phone` (src/main.py lines 167-175). -/
def show_phone (args : List String) (book : AddressBook) : String × AddressBook :=
  match args with
  | name :: _ =>
    match book.find name with
    | none => (notFoundMsg name, book)
    | some r => (joinSep ", " r.phones, book)
  | [] => ("Будь ласка, вкажіть ім\x27я.", book)

/-- Handler `show_all_contacts` (src/main.py lines 177-181). -/
def show_all_contacts (book : AddressBook) : String × AddressBook :=
  match book with
  | [] => ("Адресна книга порожня.", book)
  | _ => (joinSep "\n" (book.map fun e => e.2.render), book)

/-- Handler `add_birthday` (src/main.py lines 112-121); distinct from the
method `Record.add_birthday` it calls.  A date-validation failure leaves
the record unchanged (the assignment happens after construction). -/
def add_birthday (args : List String) (book : AddressBook) : String × AddressBook :=
  match args with
  | name :: birthday :: _ =>
    match book.find name with
    | none => (notFoundMsg name, book)
    | some r =>
      match r.add_birthday birthday with
      | .ok r2 => ("День народження для " ++ name ++ " додано.", dict_set book name r2)
      | .error e => (e, book)
  | _ => ("Будь ласка, вкажіть ім\x27я та дату народження.", book)

/-- Handler `show_birthday` (src/main.py lines 123-133). -/
def show_birthday (args : List String) (book : AddressBook) : String × AddressBook :=
  match args with
  | name :: _ =>
    match book.find name with
    | none => (notFoundMsg name, book)
    | some r =>
      match r.birthday with
      | none => ("Інформація про день народження для " ++ name ++ " відсутня.", book)
      | some b => ("День народження " ++ name ++ ": " ++ strftime_dmY b ++ ".", book)
  | [] => ("Будь ласка, вкажіть ім\x27я.", book)

/-- Handler `birthdays` (src/main.py lines 135-140); ignores its `args`.
The `ValueError` that `get_upcoming_birthdays` may raise is caught by the
`input_error` wrapper and returned as its message. -/
def birthdays (_args : List String) (book : AddressBook) (today : PyDateTime) :
    String × AddressBook :=
  match book.get_upcoming_birthdays today 7 with
  | .ok [] => ("Немає днів народження на наступному тижні.", book)
  | .ok l => (joinSep "\n" l, book)
  | .error e => (e, book)

/-! ## Input parsing and the command loop (src/main.py lines 183-226) -/

/-- Python `str.lower` restricted to ASCII letters (commands are ASCII). -/
def pyLower (s : String) : String :=
  String.mk (s.data.map fun c =>
    if 65 ≤ c.toNat && c.toNat ≤ 90 then Char.ofNat (c.toNat + 32) else c)

/-- The ASCII characters Python `str.split()` treats as whitespace (those
with `str.isspace() = True`): `\t \n \x0b \x0c \r` (9-13), the separator
controls `\x1c \x1d \x1e \x1f` (28-31) and the space (32). -/
def isPySpace (c : Char) : Bool :=
  (9 ≤ c.toNat && c.toNat ≤ 13) || (28 ≤ c.toNat && c.toNat ≤ 31) || c.toNat == 32

/-- Python `str.split()` (no argument): split on whitespace runs, dropping
empty tokens. -/
def pySplitAux : List Char → List Char → List String
  | [], [] => []
  | [], acc => [String.mk acc.reverse]
  | c :: rest, acc =>
    if isPySpace c then
      match acc with
      | [] => pySplitAux rest []
      | _ => String.mk acc.reverse :: pySplitAux rest []
    else pySplitAux rest (c :: acc)

def pySplit (s : String) : List String := pySplitAux s.data []

/-- `parse_input` (src/main.py lines 183-187).  `parts[0]` raises an
`IndexError` when the stripped input splits to no tokens (blank line);
modelled as `none`.  This function is *not* wrapped by `input_error`. -/
def parse_input (user_input : String) : Option (String × List String) :=
  match pySplit user_input with
  | [] => none
  | command :: args => some (pyLower command, args)

/-- Outcome of one iteration of the `while True` loop in `main`
(src/main.py lines 192-226). -/
inductive StepOutcome where
  | crashed (exc : String)
  | exited (book : AddressBook)
  | replied (msg : String) (book : AddressBook)
deriving Repr

/-- One iteration of the command loop on input `line`: parse, dispatch,
print the returned string (captured in `replied`).  A `crashed` outcome is
an exception reaching the loop.  `today` is the clock value used by the
`birthdays` branch. -/
def processLine (line : String) (book : AddressBook) (today : PyDateTime) : StepOutcome :=
  match parse_input line with
  | none => .crashed "IndexError"
  | some (command, args) =>
    if command = "close" || command = "exit" then .exited book
    else if command = "hello" then .replied "Чим я можу допомогти?" book
    else if command = "add" then
      let r := add_contact args book
      .replied r.1 r.2
    else if command = "change" then
      let r := change_contact args book
      .replied r.1 r.2
    else if command = "phone" then
      let r := show_phone args book
      .replied r.1 r.2
    else if command = "all" then
      let r := show_all_contacts book
      .replied r.1 r.2
    else if command = "add-birthday" then
      let r := add_birthday args book
      .replied r.1 r.2
    else if command = "show-birthday" then
      let r := show_birthday args book
      .replied r.1 r.2
    else if command = "birthdays" then
      let r := birthdays args book today
      .replied r.1 r.2
    else .replied "Неправильна команда." book

/-! ## Spec-side definitions

These follow the wording of the specification (not the source); the
theorems below compare them with the embedded code. -/

/-- The spec's phone rule: "a string of exactly 10 decimal digits (no other
characters, no partial match)". -/
def specTenDigits (s : String) : Bool :=
  s.data.length == 10 && s.data.all Char.isDigit

/-- Ten decimal digits followed by one trailing newline — the extra family
of strings accepted by the source's regex. -/
def tenDigitsNewline (s : String) : Bool :=
  s.data.getLast? == some '\n' && specTenDigits (String.mk s.data.dropLast)

/-- The canonical `DD.MM.YYYY` rendering of calendar fields (two-digit day
and month, four-digit year). -/
def canonicalDMY (d m y : Nat) : String :=
  String.mk [digitChar (d / 10), digitChar (d % 10), '.',
    digitChar (m / 10), digitChar (m % 10), '.',
    digitChar (y / 1000 % 10), digitChar (y / 100 % 10),
    digitChar (y / 10 % 10), digitChar (y % 10)]

/-- The spec's description of the upcoming-birthday query: the names, in
the book's insertion order, of the records whose birthday re-anchored to
the current year (month/day preserved, year replaced) satisfies
`today <= anchored < today + days`. -/
def specUpcomingNames (book : AddressBook) (today : PyDateTime) (days : Nat) : List String :=
  book.filterMap fun e =>
    match e.2.birthday with
    | none => none
    | some b =>
      let anchored : PyDateTime := { b with year := today.year }
      if pyLe today anchored && pyLt anchored (addDays today days) then some e.2.name
      else none

/-- Well-formedness of a record as the code maintains it: every stored
phone passes the source's `validate_phone`, and the stored birthday is a
valid calendar date. -/
def RecordWF (r : Record) : Bool :=
  r.phones.all validate_phone &&
    (match r.birthday with
     | some b => dateValid b.year b.month b.day
     | none => true)

/-- Well-formedness of the book: each key equals its record's name and each
record is well-formed. -/
def BookWF (book : AddressBook) : Bool :=
  book.all fun e => e.1 == e.2.name && RecordWF e.2

/-- Every birthday in the book stays a constructible date when re-anchored
to `today`'s year (rules out exactly the Feb 29 / non-leap-year failure of
`datetime.replace`). -/
def anchoredValidAll (book : AddressBook) (today : PyDateTime) : Bool :=
  book.all fun e =>
    match e.2.birthday with
    | some b => dateValid today.year b.month b.day
    | none => true

/-! ## Theorems -/

theorem decodeDate_encodeDate (t : PyDateTime) : decodeDate (encodeDate t) = some t := by
  cases t
  rfl

theorem decodePhones_encodePhones (l : List String) :
    decodePhones (encodePhones l) = some l := by
  induction l with
  | nil => rfl
  | cons x xs ih => simp [encodePhones, decodePhones] at ih ⊢; simp [ih]

theorem decodeRecord_encodeRecord (r : Record) :
    decodeRecord (encodeRecord r) = some r := by
  obtain ⟨n, ps, b⟩ := r
  cases b with
  | none => simp [encodeRecord, decodeRecord, decodePhones_encodePhones]
  | some t =>
    simp [encodeRecord, decodeRecord, decodePhones_encodePhones, encodeDate, decodeDate]

theorem decodeEntries_encodeEntries (l : List (String × Record)) :
    decodeEntries (l.map fun e => .plist [.pstr e.1, encodeRecord e.2]) = some l := by
  induction l with
  | nil => rfl
  | cons e rest ih => simp [decodeEntries, decodeRecord_encodeRecord, ih]

theorem decodeBook_encodeBook (book : AddressBook) :
    decodeBook (encodeBook book) = some book := by
  simpa [encodeBook, decodeBook] using decodeEntries_encodeEntries book

/-- C1: saving an Address Book and loading the result succeeds and yields a
book with identical record names (both as keys and in the records), the
same phone lists in the same order, and identical birthday values, record
for record. -/
theorem save_then_load_roundtrip (book : AddressBook) (file : Option PickleVal) :
    ∃ book2, load_data (save_data book file) = .ok book2 ∧
      book2.map (fun e => e.1) = book.map (fun e => e.1) ∧
      book2.map (fun e => e.2.name) = book.map (fun e => e.2.name) ∧
      book2.map (fun e => e.2.phones) = book.map (fun e => e.2.phones) ∧
      book2.map (fun e => e.2.birthday) = book.map (fun e => e.2.birthday) := by
  refine ⟨book, ?_, rfl, rfl, rfl, rfl⟩
  simp [load_data, save_data, decodeBook_encodeBook]

/-- C6: a missing file makes `load_data` return a fresh empty Address Book
(no error), while contents that fail to deserialize are not caught and
surface as an error. -/
theorem load_data_missing_or_corrupt :
    load_data none = .ok [] ∧
      ∀ v, decodeBook v = none → load_data (some v) = .error "UnpicklingError" := by
  refine ⟨rfl, fun v hv => ?_⟩
  simp [load_data, hv]

/-- Witness for C6 at concrete inputs: no file yields the empty book, and a
non-book pickle value is a surfaced error. -/
theorem load_data_missing_or_corrupt_witness :
    load_data none = .ok [] ∧ load_data (some .pnone) = .error "UnpicklingError" :=
  ⟨load_data_missing_or_corrupt.1, load_data_missing_or_corrupt.2 .pnone rfl⟩

/-- C7 (refuting the claim as stated): a blank input line crashes the
command loop.  `parse_input` evaluates `parts[0]` on the empty token list,
raising an `IndexError` that no handler boundary catches — the loop does
not merely print a string and continue. -/
theorem processLine_blank_line_crashes (book : AddressBook) (today : PyDateTime) :
    processLine "" book today = .crashed "IndexError" := rfl

/-- C2 (refuting the claim as stated): `"0123456789\n"` is not a string of
ten decimal digits, yet `Phone` construction succeeds and stores it,
because `$` in the source's pattern also matches just before a trailing
newline. -/
theorem phone_trailing_newline_counterexample :
    Phone_new "0123456789\n" = .ok "0123456789\n" ∧
      specTenDigits "0123456789\n" = false := by
  exact ⟨rfl, rfl⟩

theorem validate_phone_eq_spec (s : String) :
    validate_phone s = (specTenDigits s || tenDigitsNewline s) := by
  obtain ⟨l⟩ := s
  rw [Bool.eq_iff_iff]
  simp only [validate_phone, specTenDigits, tenDigitsNewline, Bool.and_eq_true,
    Bool.or_eq_true, beq_iff_eq, List.all_eq_true]
  constructor
  · rintro ⟨h1, h2 | ⟨h2, h3⟩⟩
    · left
      have ht : l.take 10 = l := List.take_of_length_le (by omega)
      exact ⟨h2, by rw [← ht]; exact h1⟩
    · right
      have hsplit : l = l.take 10 ++ ['\n'] := by
        conv_lhs => rw [← List.take_append_drop 10 l]
        rw [h3]
      have hlen10 : (l.take 10).length = 10 := by
        rw [List.length_take]; omega
      refine ⟨?_, ?_, ?_⟩
      · rw [hsplit]; exact List.getLast?_concat _
      · rw [hsplit, List.dropLast_concat]; exact hlen10
      · rw [hsplit, List.dropLast_concat]; exact h1
  · rintro (⟨h2, h1⟩ | ⟨hlast, hlen, hall⟩)
    · have ht : l.take 10 = l := List.take_of_length_le (by omega)
      exact ⟨by rw [ht]; exact h1, Or.inl h2⟩
    · have hne : l ≠ [] := by
        intro h
        rw [h] at hlast
        simp at hlast
      have hl : l.dropLast ++ [l.getLast hne] = l := List.dropLast_concat_getLast hne
      have hgl : l.getLast hne = '\n' := by
        have h0 := List.getLast?_eq_getLast_of_ne_nil hne
        rw [hlast] at h0
        exact (Option.some.inj h0).symm
      rw [hgl] at hl
      refine ⟨?_, Or.inr ⟨?_, ?_⟩⟩
      · rw [← hl, List.take_left' hlen]
        exact hall
      · rw [← hl]
        simp [hlen]
      · rw [← hl, List.drop_left' hlen]

/-- C2 amended: `Phone` construction succeeds (storing the given string
unchanged) exactly on strings of ten decimal digits optionally followed by
one trailing newline character; every other string fails with the
validation error. -/
theorem Phone_new_characterization (s : String) :
    Phone_new s =
      (if specTenDigits s || tenDigitsNewline s then .ok s else .error phoneError) := by
  rw [Phone_new, validate_phone_eq_spec]

theorem daysInMonth_le_31 (y m : Nat) : daysInMonth y m ≤ 31 := by
  unfold daysInMonth
  split
  · split <;> omega
  · split <;> omega

theorem digitChar_isDigit {k : Nat} (h : k < 10) : (digitChar k).isDigit = true := by
  interval_cases k <;> decide

theorem digitVal_digitChar {k : Nat} (h : k < 10) : digitVal (digitChar k) = k := by
  interval_cases k <;> decide

theorem matchDay_canonical (d : Nat) (h1 : 1 ≤ d) (h2 : d ≤ 31) (rest : List Char) :
    matchDay (digitChar (d / 10) :: digitChar (d % 10) :: rest) = some (d, rest) := by
  interval_cases d <;> rfl

theorem matchMonth_canonical (m : Nat) (h1 : 1 ≤ m) (h2 : m ≤ 12) (rest : List Char) :
    matchMonth (digitChar (m / 10) :: digitChar (m % 10) :: rest) = some (m, rest) := by
  interval_cases m <;> rfl

theorem matchYear_canonical (y : Nat) (h : y ≤ 9999) (rest : List Char) :
    matchYear (digitChar (y / 1000 % 10) :: digitChar (y / 100 % 10) ::
      digitChar (y / 10 % 10) :: digitChar (y % 10) :: rest) = some (y, rest) := by
  have m1 : y / 1000 % 10 < 10 := Nat.mod_lt _ (by omega)
  have m2 : y / 100 % 10 < 10 := Nat.mod_lt _ (by omega)
  have m3 : y / 10 % 10 < 10 := Nat.mod_lt _ (by omega)
  have m4 : y % 10 < 10 := Nat.mod_lt _ (by omega)
  simp only [matchYear, digitChar_isDigit m1, digitChar_isDigit m2, digitChar_isDigit m3,
    digitChar_isDigit m4, Bool.and_self, if_true, digitVal_digitChar m1,
    digitVal_digitChar m2, digitVal_digitChar m3, digitVal_digitChar m4,
    Option.some.injEq, Prod.mk.injEq]
  exact ⟨by omega, trivial⟩

theorem strptime_canonical (d m y : Nat) (h : dateValid y m d = true) :
    strptime_dmY (canonicalDMY d m y) = some (d, m, y) := by
  simp only [dateValid, Bool.and_eq_true, decide_eq_true_eq] at h
  obtain ⟨⟨⟨⟨⟨h1, h2⟩, h3⟩, h4⟩, h5⟩, h6⟩ := h
  have hd31 : d ≤ 31 := le_trans h6 (daysInMonth_le_31 y m)
  have hdata : (canonicalDMY d m y).data =
      digitChar (d / 10) :: digitChar (d % 10) :: '.' ::
        digitChar (m / 10) :: digitChar (m % 10) :: '.' ::
        digitChar (y / 1000 % 10) :: digitChar (y / 100 % 10) ::
        digitChar (y / 10 % 10) :: digitChar (y % 10) :: [] := rfl
  have hvalid : dateValid y m d = true := by
    simp [dateValid, Bool.and_eq_true, decide_eq_true_eq, h1, h2, h3, h4, h5, h6]
  simp only [strptime_dmY, hdata, matchDay_canonical d h5 hd31,
    matchMonth_canonical m h3 h4, matchYear_canonical y h2, hvalid]
  simp

/-- Inversion: a successful `strptime` call always yields a valid calendar
date (the `datetime` constructor check is part of the parse). -/
theorem strptime_dmY_valid {s : String} {d m y : Nat}
    (h : strptime_dmY s = some (d, m, y)) : dateValid y m d = true := by
  unfold strptime_dmY at h
  repeat' split at h
  all_goals try contradiction
  all_goals simp only [Bool.and_eq_true, decide_eq_true_eq, Option.some.injEq,
    Prod.mk.injEq] at h
  all_goals
    obtain ⟨rfl, rfl, rfl⟩ := h
    rename_i hcond
    rw [Bool.and_eq_true] at hcond
    exact hcond.2

/-- C3: birthday strings parseable by the `DD.MM.YYYY` format with legal
calendar fields succeed — in particular every canonically rendered legal
date — and the stored date's fields equal the parsed ones; every string
the format parser rejects fails with the validation error. -/
theorem Birthday_new_correct :
    (∀ d m y, dateValid y m d = true →
      Birthday_new (canonicalDMY d m y) = .ok ⟨y, m, d, 0⟩) ∧
    (∀ s d m y, strptime_dmY s = some (d, m, y) →
      Birthday_new s = .ok ⟨y, m, d, 0⟩ ∧ dateValid y m d = true) ∧
    (∀ s, strptime_dmY s = none → Birthday_new s = .error birthdayError) := by
  refine ⟨fun d m y h => ?_, fun s d m y h => ?_, fun s h => ?_⟩
  · rw [Birthday_new, strptime_canonical d m y h]
  · exact ⟨by rw [Birthday_new, h], strptime_dmY_valid h⟩
  · rw [Birthday_new, h]

/-- Witness for C3 at a concrete legal date (a leap day): `"29.02.2000"`
succeeds and stores day 29, month 2, year 2000. -/
theorem Birthday_new_correct_witness :
    dateValid 2000 2 29 = true ∧
      Birthday_new (canonicalDMY 29 2 2000) = .ok ⟨2000, 2, 29, 0⟩ :=
  ⟨by decide, Birthday_new_correct.1 29 2 2000 (by decide)⟩

/-- C4: `edit_phone(old, new)` (for a `new` that passes phone validation)
removes every phone equal to `old` and appends `new`; in particular, when
no phone equals `old` it still succeeds and just appends `new`. -/
theorem edit_phone_removes_then_appends (r : Record) (old_phone new_phone : String)
    (h : validate_phone new_phone = true) :
    r.edit_phone old_phone new_phone =
      .ok { r with phones := (r.phones.filter fun p => p ≠ old_phone) ++ [new_phone] } ∧
    ((∀ p ∈ r.phones, p ≠ old_phone) →
      r.edit_phone old_phone new_phone = .ok { r with phones := r.phones ++ [new_phone] }) := by
  have h1 : r.edit_phone old_phone new_phone =
      .ok { r with phones := (r.phones.filter fun p => p ≠ old_phone) ++ [new_phone] } := by
    simp only [Record.edit_phone, Record.remove_phone, Record.add_phone, Phone_new, h, if_true]
    rfl
  refine ⟨h1, fun hno => ?_⟩
  rw [h1]
  have hf : (r.phones.filter fun p => p ≠ old_phone) = r.phones := by
    rw [List.filter_eq_self]
    intro a ha
    simpa using hno a ha
  rw [hf]

/-- Witness for C4: editing a phone that is absent from the record still
succeeds and appends the new number. -/
theorem edit_phone_removes_then_appends_witness :
    Record.edit_phone { name := "Alice", phones := ["0501234567"], birthday := none }
        "0000000000" "0509999999" =
      .ok { name := "Alice", phones := ["0501234567", "0509999999"], birthday := none } := by
  have h := (edit_phone_removes_then_appends
    { name := "Alice", phones := ["0501234567"], birthday := none }
    "0000000000" "0509999999" (by decide)).2 (by decide)
  simpa using h

theorem upcoming_aux_ok (today up : PyDateTime) :
    ∀ l : List (String × Record),
      (l.all fun e =>
        match e.2.birthday with
        | some b => dateValid today.year b.month b.day
        | none => true) = true →
      AddressBook.upcoming_aux today up l = .ok (l.filterMap fun e =>
        match e.2.birthday with
        | none => none
        | some b =>
          let anchored : PyDateTime := { b with year := today.year }
          if pyLe today anchored && pyLt anchored up then some e.2.name else none) := by
  intro l
  induction l with
  | nil => intro _; rfl
  | cons e rest ih =>
    intro h
    rw [List.all_cons, Bool.and_eq_true] at h
    obtain ⟨he, hrest⟩ := h
    obtain ⟨k, r⟩ := e
    cases hb : r.birthday with
    | none =>
      simp only [AddressBook.upcoming_aux, List.filterMap_cons, hb]
      exact ih hrest
    | some b =>
      rw [hb] at he
      simp only [AddressBook.upcoming_aux, List.filterMap_cons, hb]
      rw [if_pos he]
      cases hc : pyLe today { b with year := today.year } &&
          pyLt { b with year := today.year } up with
      | false =>
        simp only [hc, Bool.false_eq_true, if_false]
        exact ih hrest
      | true =>
        simp only [hc, if_true]
        rw [ih hrest]
        rfl

/-- C5 amended: whenever every birthday in the book survives re-anchoring
to the current year (no Feb 29 birthday with a non-leap current year),
`get_upcoming_birthdays(days=7)` returns exactly the names whose anchored
birthday satisfies `today <= anchored < today + 7 days`, in the book's
insertion order; a failing re-anchor instead raises `ValueError`. -/
theorem get_upcoming_birthdays_correct (book : AddressBook) (today : PyDateTime)
    (h : anchoredValidAll book today = true) :
    book.get_upcoming_birthdays today 7 = .ok (specUpcomingNames book today 7) :=
  upcoming_aux_ok today (addDays today 7) book h

/-- Witness for C5 at a concrete book and clock: both stored birthdays
anchor validly and the query returns the spec's list. -/
theorem get_upcoming_birthdays_correct_witness :
    AddressBook.get_upcoming_birthdays
        [("Bob", { name := "Bob", phones := [], birthday := some ⟨2000, 1, 3, 0⟩ }),
         ("Ann", { name := "Ann", phones := [], birthday := some ⟨1990, 6, 15, 0⟩ })]
        ⟨2023, 1, 1, 0⟩ 7 =
      .ok (specUpcomingNames
        [("Bob", { name := "Bob", phones := [], birthday := some ⟨2000, 1, 3, 0⟩ }),
         ("Ann", { name := "Ann", phones := [], birthday := some ⟨1990, 6, 15, 0⟩ })]
        ⟨2023, 1, 1, 0⟩ 7) :=
  get_upcoming_birthdays_correct _ _ (by decide)

/-- C5 (refuting the claim as stated): on a book holding a Feb 29 birthday
with a non-leap current year, the query does not return the described name
list at all — `replace(year=...)` raises `ValueError` ("day is out of
range for month"). -/
theorem get_upcoming_birthdays_feb29_counterexample :
    AddressBook.get_upcoming_birthdays
        [("Bob", { name := "Bob", phones := [], birthday := some ⟨2000, 2, 29, 0⟩ })]
        ⟨2023, 1, 1, 0⟩ 7 = .error "day is out of range for month" ∧
      AddressBook.get_upcoming_birthdays
          [("Bob", { name := "Bob", phones := [], birthday := some ⟨2000, 2, 29, 0⟩ })]
          ⟨2023, 1, 1, 0⟩ 7 ≠
        .ok (specUpcomingNames
          [("Bob", { name := "Bob", phones := [], birthday := some ⟨2000, 2, 29, 0⟩ })]
          ⟨2023, 1, 1, 0⟩ 7) := by
  refine ⟨rfl, fun hcontra => ?_⟩
  rw [(rfl : AddressBook.get_upcoming_birthdays
      [("Bob", { name := "Bob", phones := [], birthday := some ⟨2000, 2, 29, 0⟩ })]
      ⟨2023, 1, 1, 0⟩ 7 = .error "day is out of range for month")] at hcontra
  exact Except.noConfusion hcontra

theorem dict_set_dict_set (book : List (String × Record)) (k : String) (v w : Record) :
    dict_set (dict_set book k v) k w = dict_set book k w := by
  induction book with
  | nil => simp [dict_set]
  | cons e rest ih =>
    obtain ⟨k0, v0⟩ := e
    by_cases hk : k0 = k
    · simp [dict_set, hk]
    · simp [dict_set, hk, ih]

theorem find_dict_set (book : List (String × Record)) (k : String) (v : Record) :
    AddressBook.find (dict_set book k v) k = some v := by
  induction book with
  | nil => simp [AddressBook.find, dict_set, List.find?]
  | cons e rest ih =>
    obtain ⟨k0, v0⟩ := e
    by_cases hk : k0 = k
    · simp [AddressBook.find, dict_set, hk, List.find?]
    · simp only [dict_set, if_neg hk]
      simp only [AddressBook.find, List.find?] at ih ⊢
      simp [hk, ih]

/-- C8: with a name and a (valid) phone, the `add` handler creates a fresh
record and reports "Контакт додано." when the name is absent, and reuses
the existing record and reports "Контакт оновлено." when it is present; in
both cases the phone is appended to that record's phone list. -/
theorem add_contact_adds_or_updates (book : AddressBook) (name phone : String)
    (rest : List String) (hname : name ≠ "") (hphone : validate_phone phone = true) :
    (book.find name = none →
      add_contact (name :: phone :: rest) book =
        ("Контакт додано.",
          dict_set book name { name := name, phones := [phone], birthday := none })) ∧
    (∀ r, book.find name = some r →
      add_contact (name :: phone :: rest) book =
        ("Контакт оновлено.",
          dict_set book name { r with phones := r.phones ++ [phone] })) := by
  constructor
  · intro hfind
    have hr : Record_new name = .ok { name := name, phones := [], birthday := none } := by
      simp only [Record_new, Name_new, hname, if_neg, ite_false]
      rfl
    have hp : Record.add_phone { name := name, phones := [], birthday := none } phone =
        .ok { name := name, phones := [phone], birthday := none } := by
      simp only [Record.add_phone, Phone_new, hphone, if_true]
      rfl
    simp only [add_contact, hfind, hr, hp, AddressBook.add_record]
    rw [dict_set_dict_set]
  · intro r hfind
    have hp : r.add_phone phone = .ok { r with phones := r.phones ++ [phone] } := by
      simp only [Record.add_phone, Phone_new, hphone, if_true]
      rfl
    simp only [add_contact, hfind, hp]

/-- Witness for C8: adding a fresh contact with a valid phone returns the
"added" message and stores the phone. -/
theorem add_contact_adds_or_updates_witness :
    add_contact ["Alice", "0501234567"] [] =
      ("Контакт додано.",
        dict_set [] "Alice" { name := "Alice", phones := ["0501234567"], birthday := none }) :=
  (add_contact_adds_or_updates [] "Alice" "0501234567" [] (by decide) (by decide)).1 rfl

/-- C10: calling the `add` handler with an absent name and an invalid phone
returns the phone-validation error message, yet the book now contains a
record under that name with an empty phone list — the insertion done before
the failing validation is not rolled back. -/
theorem add_contact_not_atomic (book : AddressBook) (name phone : String) (rest : List String)
    (hname : name ≠ "") (hfind : book.find name = none)
    (hphone : validate_phone phone = false) :
    add_contact (name :: phone :: rest) book =
      (phoneError, dict_set book name { name := name, phones := [], birthday := none }) ∧
    AddressBook.find (dict_set book name { name := name, phones := [], birthday := none })
        name = some { name := name, phones := [], birthday := none } := by
  constructor
  · have hr : Record_new name = .ok { name := name, phones := [], birthday := none } := by
      simp only [Record_new, Name_new, hname, if_neg, ite_false]
      rfl
    have hp : Record.add_phone { name := name, phones := [], birthday := none } phone =
        .error phoneError := by
      simp only [Record.add_phone, Phone_new, hphone, Bool.false_eq_true, if_false]
      rfl
    simp only [add_contact, hfind, hr, hp, AddressBook.add_record]
  · exact find_dict_set book name _

/-- Witness for C10: `add Alice 123` on an empty book answers with the
validation error and leaves a phoneless record for Alice behind. -/
theorem add_contact_not_atomic_witness :
    add_contact ["Alice", "123"] [] =
      (phoneError, dict_set [] "Alice" { name := "Alice", phones := [], birthday := none }) ∧
    AddressBook.find (dict_set [] "Alice" { name := "Alice", phones := [], birthday := none })
        "Alice" = some { name := "Alice", phones := [], birthday := none } :=
  add_contact_not_atomic [] "Alice" "123" [] (by decide) rfl (by decide)

theorem Phone_new_ok {s p : String} (h : Phone_new s = .ok p) :
    p = s ∧ validate_phone s = true := by
  by_cases hv : validate_phone s = true
  · rw [Phone_new, if_pos hv] at h
    exact ⟨(Except.ok.inj h).symm, hv⟩
  · rw [Phone_new, if_neg hv] at h
    exact Except.noConfusion h

theorem Name_new_ok {s v : String} (h : Name_new s = .ok v) : v = s := by
  by_cases he : s = ""
  · rw [Name_new, if_pos he] at h
    exact Except.noConfusion h
  · rw [Name_new, if_neg he] at h
    exact (Except.ok.inj h).symm

theorem add_phone_ok {r : Record} {s : String} {r2 : Record}
    (h : Record.add_phone r s = .ok r2) :
    r2 = { r with phones := r.phones ++ [s] } ∧ validate_phone s = true := by
  unfold Record.add_phone at h
  cases hp : Phone_new s with
  | error e => rw [hp] at h; exact Except.noConfusion h
  | ok p =>
    obtain ⟨rfl, hv⟩ := Phone_new_ok hp
    rw [hp] at h
    exact ⟨(Except.ok.inj h).symm, hv⟩

theorem Birthday_new_ok {s : String} {b : PyDateTime} (h : Birthday_new s = .ok b) :
    dateValid b.year b.month b.day = true := by
  unfold Birthday_new at h
  cases hp : strptime_dmY s with
  | none => rw [hp] at h; exact Except.noConfusion h
  | some t =>
    obtain ⟨d, m, y⟩ := t
    rw [hp] at h
    have hb : b = ⟨y, m, d, 0⟩ := (Except.ok.inj h).symm
    rw [hb]
    exact strptime_dmY_valid hp

theorem add_birthday_ok {r : Record} {s : String} {r2 : Record}
    (h : Record.add_birthday r s = .ok r2) :
    ∃ b, r2 = { r with birthday := some b } ∧ dateValid b.year b.month b.day = true := by
  unfold Record.add_birthday at h
  cases hb : Birthday_new s with
  | error e => rw [hb] at h; exact Except.noConfusion h
  | ok b => exact ⟨b, (Except.ok.inj (hb ▸ h)).symm, Birthday_new_ok hb⟩

theorem recordWF_phones {r : Record} (h : RecordWF r = true) :
    ∀ p ∈ r.phones, validate_phone p = true := by
  rw [RecordWF, Bool.and_eq_true, List.all_eq_true] at h
  exact h.1

theorem recordWF_birthday {r : Record} (h : RecordWF r = true) {b : PyDateTime}
    (hb : r.birthday = some b) : dateValid b.year b.month b.day = true := by
  rw [RecordWF, Bool.and_eq_true] at h
  have h2 := h.2
  rw [hb] at h2
  exact h2

theorem recordWF_mk {r : Record}
    (hp : ∀ p ∈ r.phones, validate_phone p = true)
    (hb : ∀ b, r.birthday = some b → dateValid b.year b.month b.day = true) :
    RecordWF r = true := by
  rw [RecordWF, Bool.and_eq_true, List.all_eq_true]
  refine ⟨hp, ?_⟩
  cases hbd : r.birthday with
  | none => rfl
  | some b => exact hb b hbd

theorem recordWF_add_phone {r : Record} {s : String} {r2 : Record}
    (h : Record.add_phone r s = .ok r2) (hw : RecordWF r = true) : RecordWF r2 = true := by
  obtain ⟨rfl, hv⟩ := add_phone_ok h
  refine recordWF_mk (fun p hp => ?_) (fun b hb => recordWF_birthday hw hb)
  rcases List.mem_append.mp hp with h1 | h2
  · exact recordWF_phones hw p h1
  · rw [List.mem_singleton] at h2
    subst h2
    exact hv

theorem recordWF_remove_phone (r : Record) (s : String) (hw : RecordWF r = true) :
    RecordWF (Record.remove_phone r s) = true :=
  recordWF_mk (fun p hp => recordWF_phones hw p (List.mem_of_mem_filter hp))
    (fun _ hb => recordWF_birthday hw hb)

theorem recordWF_edit_phone {r : Record} {o n : String} {r2 : Record}
    (h : Record.edit_phone r o n = .ok r2) (hw : RecordWF r = true) : RecordWF r2 = true :=
  recordWF_add_phone h (recordWF_remove_phone r o hw)

theorem recordWF_add_birthday {r : Record} {s : String} {r2 : Record}
    (h : Record.add_birthday r s = .ok r2) (hw : RecordWF r = true) : RecordWF r2 = true := by
  obtain ⟨b, rfl, hv⟩ := add_birthday_ok h
  refine recordWF_mk (fun p hp => recordWF_phones hw p hp) (fun b2 hb2 => ?_)
  have hbb : some b = some b2 := hb2
  exact Option.some.inj hbb ▸ hv

theorem mem_dict_set (book : List (String × Record)) (k : String) (v : Record) :
    ∀ e ∈ dict_set book k v, e = (k, v) ∨ e ∈ book := by
  induction book with
  | nil =>
    intro e he
    simp only [dict_set, List.mem_singleton] at he
    exact Or.inl he
  | cons e0 rest ih =>
    obtain ⟨k0, v0⟩ := e0
    intro e he
    by_cases hk : k0 = k
    · simp only [dict_set, if_pos hk] at he
      rcases List.mem_cons.mp he with rfl | h2
      · left; rw [hk]
      · right; exact List.mem_cons_of_mem _ h2
    · simp only [dict_set, if_neg hk] at he
      rcases List.mem_cons.mp he with rfl | h2
      · right; exact List.mem_cons_self _ _
      · rcases ih e h2 with h3 | h4
        · exact Or.inl h3
        · exact Or.inr (List.mem_cons_of_mem _ h4)

theorem bookWF_mem {book : List (String × Record)} (hb : BookWF book = true) :
    ∀ e ∈ book, e.1 = e.2.name ∧ RecordWF e.2 = true := by
  simp only [BookWF, List.all_eq_true] at hb
  intro e he
  have h2 := hb e he
  rw [Bool.and_eq_true, beq_iff_eq] at h2
  exact h2

theorem bookWF_mk {book : List (String × Record)}
    (h : ∀ e ∈ book, e.1 = e.2.name ∧ RecordWF e.2 = true) : BookWF book = true := by
  simp only [BookWF, List.all_eq_true]
  intro e he
  rw [Bool.and_eq_true, beq_iff_eq]
  exact h e he

theorem bookWF_dict_set {book : List (String × Record)} {k : String} {v : Record}
    (hb : BookWF book = true) (hk : k = v.name) (hv : RecordWF v = true) :
    BookWF (dict_set book k v) = true := by
  refine bookWF_mk fun e he => ?_
  rcases mem_dict_set book k v e he with rfl | hmem
  · exact ⟨hk, hv⟩
  · exact bookWF_mem hb e hmem

theorem bookWF_delete (book : AddressBook) (nm : String) (hb : BookWF book = true) :
    BookWF (book.delete nm) = true := by
  refine bookWF_mk fun e he => ?_
  simp only [AddressBook.delete] at he
  exact bookWF_mem hb e (List.mem_of_mem_filter he)

theorem find_wf {book : AddressBook} {nm : String} {r : Record}
    (hb : BookWF book = true) (h : book.find nm = some r) :
    r.name = nm ∧ RecordWF r = true := by
  unfold AddressBook.find at h
  rw [Option.map_eq_some'] at h
  obtain ⟨e0, hfind, hsnd⟩ := h
  have hmem := List.mem_of_find?_eq_some hfind
  have hkey0 := List.find?_some hfind
  have hkey : e0.1 = nm := of_decide_eq_true hkey0
  obtain ⟨hnm, hwf⟩ := bookWF_mem hb e0 hmem
  subst hsnd
  exact ⟨by rw [← hnm]; exact hkey, hwf⟩

theorem add_contact_preserves_WF (args : List String) (book : AddressBook)
    (hb : BookWF book = true) : BookWF (add_contact args book).2 = true := by
  rcases args with - | ⟨name, args2⟩
  · exact hb
  rcases args2 with - | ⟨phone, rest⟩
  · exact hb
  cases hf : book.find name with
  | some r =>
    cases hp : Record.add_phone r phone with
    | ok r2 =>
      obtain ⟨hrname, hrwf⟩ := find_wf hb hf
      have hr2 : r2.name = r.name := by
        obtain ⟨rfl, -⟩ := add_phone_ok hp
        rfl
      simp only [add_contact, hf, hp]
      exact bookWF_dict_set hb (by rw [hr2, hrname]) (recordWF_add_phone hp hrwf)
    | error e =>
      simp only [add_contact, hf, hp]
      exact hb
  | none =>
    cases hn : Name_new name with
    | error e =>
      simp only [add_contact, hf, Record_new, hn, Except.map]
      exact hb
    | ok nm =>
      have hnm : nm = name := Name_new_ok hn
      have hwf0 : RecordWF { name := nm, phones := [], birthday := none } = true := rfl
      have hbook1 : BookWF
          (book.add_record { name := nm, phones := [], birthday := none }) = true :=
        bookWF_dict_set hb rfl hwf0
      cases hp : Record.add_phone { name := nm, phones := [], birthday := none } phone with
      | ok r2 =>
        simp only [add_contact, hf, Record_new, hn, Except.map, hp]
        refine bookWF_dict_set hbook1 ?_ (recordWF_add_phone hp hwf0)
        obtain ⟨rfl, -⟩ := add_phone_ok hp
        exact hnm.symm
      | error e =>
        simp only [add_contact, hf, Record_new, hn, Except.map, hp]
        exact hbook1

theorem change_contact_preserves_WF (args : List String) (book : AddressBook)
    (hb : BookWF book = true) : BookWF (change_contact args book).2 = true := by
  rcases args with - | ⟨name, args2⟩
  · exact hb
  rcases args2 with - | ⟨old_phone, args3⟩
  · exact hb
  rcases args3 with - | ⟨new_phone, rest⟩
  · exact hb
  cases hf : book.find name with
  | none =>
    simp only [change_contact, hf]
    exact hb
  | some r =>
    obtain ⟨hrname, hrwf⟩ := find_wf hb hf
    have hwf1 : RecordWF (Record.remove_phone r old_phone) = true :=
      recordWF_remove_phone r old_phone hrwf
    have hname1 : (Record.remove_phone r old_phone).name = r.name := rfl
    cases hp : Record.add_phone (Record.remove_phone r old_phone) new_phone with
    | ok r2 =>
      have hr2 : r2.name = r.name := by
        obtain ⟨rfl, -⟩ := add_phone_ok hp
        rfl
      simp only [change_contact, hf, hp]
      exact bookWF_dict_set hb (by rw [hr2, hrname]) (recordWF_add_phone hp hwf1)
    | error e =>
      simp only [change_contact, hf, hp]
      exact bookWF_dict_set hb (by rw [hname1, hrname]) hwf1

theorem add_birthday_preserves_WF (args : List String) (book : AddressBook)
    (hb : BookWF book = true) : BookWF (add_birthday args book).2 = true := by
  rcases args with - | ⟨name, args2⟩
  · exact hb
  rcases args2 with - | ⟨bd, rest⟩
  · exact hb
  cases hf : book.find name with
  | none =>
    simp only [add_birthday, hf]
    exact hb
  | some r =>
    obtain ⟨hrname, hrwf⟩ := find_wf hb hf
    cases hab : Record.add_birthday r bd with
    | ok r2 =>
      have hr2 : r2.name = r.name := by
        obtain ⟨b, rfl, -⟩ := add_birthday_ok hab
        rfl
      simp only [add_birthday, hf, hab]
      exact bookWF_dict_set hb (by rw [hr2, hrname]) (recordWF_add_birthday hab hrwf)
    | error e =>
      simp only [add_birthday, hf, hab]
      exact hb

theorem show_phone_book_unchanged (args : List String) (book : AddressBook) :
    (show_phone args book).2 = book := by
  rcases args with - | ⟨name, rest⟩
  · rfl
  cases hf : book.find name with
  | none => simp only [show_phone, hf]
  | some r => simp only [show_phone, hf]

theorem show_birthday_book_unchanged (args : List String) (book : AddressBook) :
    (show_birthday args book).2 = book := by
  rcases args with - | ⟨name, rest⟩
  · rfl
  cases hf : book.find name with
  | none => simp only [show_birthday, hf]
  | some r =>
    cases hbd : r.birthday with
    | none => simp only [show_birthday, hf, hbd]
    | some b => simp only [show_birthday, hf, hbd]

theorem show_all_contacts_book_unchanged (book : AddressBook) :
    (show_all_contacts book).2 = book := by
  cases book with
  | nil => rfl
  | cons e rest => rfl

theorem birthdays_book_unchanged (args : List String) (book : AddressBook)
    (today : PyDateTime) : (birthdays args book today).2 = book := by
  cases hq : book.get_upcoming_birthdays today 7 with
  | ok l =>
    cases l with
    | nil => simp only [birthdays, hq]
    | cons x xs => simp only [birthdays, hq]
  | error e => simp only [birthdays, hq]

/-- C9 (refuting the claim as stated): `add_phone` accepts
`"0123456789\n"`, so after the operation a record holds a phone that does
not satisfy the spec's 10-digit rule — the claimed invariant is not
preserved verbatim. -/
theorem ten_digit_invariant_counterexample :
    Record.add_phone { name := "Alice", phones := [], birthday := none } "0123456789\n" =
      .ok { name := "Alice", phones := ["0123456789\n"], birthday := none } ∧
    specTenDigits "0123456789\n" = false :=
  ⟨rfl, rfl⟩

/-- C9 amended: every operation preserves the invariant that each stored
phone passes the code's `validate_phone` (ten digits, optionally a trailing
newline), each stored birthday is a valid calendar date, and each book key
equals its record's name: the record operations `add_phone`,
`remove_phone`, `edit_phone`, `add_birthday`, the book operations
`add_record` and `delete`, and all seven command handlers (the display
handlers return the book unchanged). -/
theorem invariant_preserved_by_all_operations :
    (∀ r s r2, Record.add_phone r s = .ok r2 → RecordWF r = true → RecordWF r2 = true) ∧
    (∀ r s, RecordWF r = true → RecordWF (Record.remove_phone r s) = true) ∧
    (∀ r o n r2, Record.edit_phone r o n = .ok r2 → RecordWF r = true →
      RecordWF r2 = true) ∧
    (∀ r s r2, Record.add_birthday r s = .ok r2 → RecordWF r = true →
      RecordWF r2 = true) ∧
    (∀ (book : AddressBook) r, BookWF book = true → RecordWF r = true →
      BookWF (book.add_record r) = true) ∧
    (∀ (book : AddressBook) nm, BookWF book = true → BookWF (book.delete nm) = true) ∧
    (∀ args (book : AddressBook), BookWF book = true →
      BookWF (add_contact args book).2 = true) ∧
    (∀ args (book : AddressBook), BookWF book = true →
      BookWF (change_contact args book).2 = true) ∧
    (∀ args (book : AddressBook), BookWF book = true →
      BookWF (add_birthday args book).2 = true) ∧
    (∀ args (book : AddressBook), (show_phone args book).2 = book) ∧
    (∀ args (book : AddressBook), (show_birthday args book).2 = book) ∧
    (∀ (book : AddressBook), (show_all_contacts book).2 = book) ∧
    (∀ args (book : AddressBook) today, (birthdays args book today).2 = book) :=
  ⟨fun _ _ _ h hw => recordWF_add_phone h hw,
   fun r s hw => recordWF_remove_phone r s hw,
   fun _ _ _ _ h hw => recordWF_edit_phone h hw,
   fun _ _ _ h hw => recordWF_add_birthday h hw,
   fun _ _ hb hr => bookWF_dict_set hb rfl hr,
   fun book nm hb => bookWF_delete book nm hb,
   fun args book hb => add_contact_preserves_WF args book hb,
   fun args book hb => change_contact_preserves_WF args book hb,
   fun args book hb => add_birthday_preserves_WF args book hb,
   fun args book => show_phone_book_unchanged args book,
   fun args book => show_birthday_book_unchanged args book,
   fun book => show_all_contacts_book_unchanged book,
   fun args book today => birthdays_book_unchanged args book today⟩

/-- Witness for C9: starting from the empty (well-formed) book, the `add`
handler yields a well-formed book. -/
theorem invariant_preserved_by_all_operations_witness :
    BookWF (add_contact ["Alice", "0501234567"] []).2 = true :=
  invariant_preserved_by_all_operations.2.2.2.2.2.2.1 ["Alice", "0501234567"] [] rfl
